import Mathlib

/-!
# Shallow embedding of `keyboard_emulator.py` (Gadget_Keyboard_Emulator)

This file models the `KeyboardEmulator` class of `src/keyboard_emulator.py`
(Python 2) and proves properties of the script language interpreter, the
key-to-HID-code encoder and the report emitter.

Modelling conventions:
* Python byte values and HID usage codes are `Nat`.
* An 8-byte HID report is a `List Nat` of length 8.
* `self.modifier` in the source is either the bytes object `b"\x00"` (its
  initial value) or an `int` taken from `modifier_codes`; this union is the
  inductive type `PyMod`.  Python 2 comparison semantics between `int` and
  `bytes` (`==` is `False`, `int < bytes` is `True`) are reproduced where the
  source relies on them.
* The HID sink (`open`/`write` on the gadget device) is modelled by a list
  `outcomes : List Bool` of per-attempt results: attempt `t` of a send
  succeeds iff `outcomes.get? t` is `some true` or out of range (a finite
  transient outage, after which the sink recovers).  A failed attempt writes
  nothing; a successful attempt writes the press report and the release
  report.  Real-time sleeping (`sleep`) is not modelled; only the attempt
  counting of the retry loop is.
* Python `float` values are modelled as exact rationals (`ℚ`) of the decimal
  literal; `float(s)` on a stripped string is modelled by `pyFloat`, which
  covers the finite decimal forms `[sign] (digits [. digits] | . digits)
  [(e|E) [sign] digits]` (not `inf`/`nan`/underscore separators).
* Exceptions are an `Except`/error-sum: `FileError`, `TranslateError` and the
  module's own `TimeoutError` (the spec's `ConnectError`) carry the data the
  source stores on them; `indexError` stands for an uncaught Python
  `IndexError` (reachable in the `DELAY` branch of `parse_line` when the line
  has no `=`).
-/

/-- An 8-byte HID keyboard report (byte values). -/
def Report := List Nat
deriving DecidableEq, Repr

/-- `empty = "\x00\x00\x00\x00\x00\x00\x00\x00"`: the all-zero release
report sent to stop any keys being pressed. -/
def emptyReport : Report := List.replicate 8 0

/-- The runtime type of `self.modifier`: initially the bytes object
`b"\x00"`, and an `int` from `modifier_codes` once a modifier is toggled
on. -/
inductive PyMod where
  | bytes0
  | code (n : Nat)
deriving DecidableEq, Repr

/-- The byte stored by `usb_message[0] = modifier` (Python 2 `bytearray`
item assignment accepts a one-byte string: `b"\x00"` stores 0). -/
def pymodByte : PyMod → Nat
  | .bytes0 => 0
  | .code n => n

/-- Python 2 `self.modifier_codes[special] == self.modifier`: `int == bytes`
is `False`, `int == int` is numeric equality. -/
def pymodEqNat (n : Nat) (m : PyMod) : Bool :=
  match m with
  | .bytes0 => false
  | .code k => n == k

/-- Python 2 `time < timeout` where `time` is an `int` and `timeout` is the
`PyMod` passed for the `timeout` parameter: `int < bytes` is always `True`
in Python 2 (numbers sort before other types). -/
def pymodLt (time : Nat) (m : PyMod) : Bool :=
  match m with
  | .bytes0 => true
  | .code n => time < n

/-- The exceptions of the module: `FileError`, `TranslateError`, the
module's `TimeoutError` (raised as the spec's `ConnectError`), and an
uncaught Python `IndexError`. -/
inductive KbError where
  | fileError (file : String) (line : Nat) (msg : String)
  | translateError (file : String) (line : Nat) (msg : String)
  | timeoutError (msg : String)
  | indexError
deriving DecidableEq, Repr

deriving instance DecidableEq for Except

/-- The mutable fields of `KeyboardEmulator` that the interpreter uses
(`emulator`/`write_mode` are subsumed by the sink model). -/
structure EmuState where
  filepath : String
  delay_between_keys : ℚ
  modifier : PyMod
  line_number : Nat
deriving DecidableEq, Repr

/-- `modifier_codes`: HID keyboard hex codes for modifier keys. -/
def modifier_codes : List (String × Nat) :=
  [("CONTROL_L", 0x01), ("SHIFT_L", 0x02), ("ALT_L", 0x04),
   ("SUPER_L", 0x08), ("MULTI", 0x08), ("CONTROL_R", 0x10),
   ("SHIFT_R", 0x20), ("MENU", 0x80), ("ISO_LEVEL3_SHIFT", 0x40)]

/-- `key_codes`: HID keyboard hex codes for specific keys. -/
def key_codes : List (String × Nat) :=
  [ -- Function keys
   ("F1", 0x3A), ("F2", 0x3B), ("F3", 0x3C), ("F4", 0x3D),
   ("F5", 0x3E), ("F6", 0x3F), ("F7", 0x40), ("F8", 0x41),
   ("F9", 0x42), ("F10", 0x43), ("F11", 0x44), ("F12", 0x45),
   -- Symbols above the row of numbers
   ("!", 0x1E), ("@", 0x1F), ("#", 0x20), ("$", 0x21), ("%", 0x22),
   ("^", 0x23), ("&", 0x24), ("*", 0x25), ("(", 0x26), (")", 0x27),
   -- Row of numbers
   ("1", 0x1E), ("2", 0x1F), ("3", 0x20), ("4", 0x21), ("5", 0x22),
   ("6", 0x23), ("7", 0x24), ("8", 0x25), ("9", 0x26), ("0", 0x27),
   -- Navigation/Editing
   ("INSERT", 0x49), ("HOME", 0x4A), ("PRIOR", 0x4B),
   ("DELETE", 0x4C), ("END", 0x4D), ("NEXT", 0x4E),
   ("ENTER", 0x28), ("ESCAPE", 0x29), ("BACKSPACE", 0x2A),
   ("TAB", 0x2B), (" ", 0x2C),
   -- Miscellaneous symbols - grouped by key (one per row)
   ("-", 0x2D), ("_", 0x2D),
   ("=", 0x2E), ("+", 0x2E),
   ("[", 0x2F), ("\x7b", 0x2F),
   ("]", 0x30), ("\x7d", 0x30),
   ("\\", 0x31), ("|", 0x31),
   (";", 0x33), (":", 0x33),
   ("'", 0x34), ("\"", 0x34),
   ("`", 0x35), ("~", 0x35),
   (",", 0x36), ("<", 0x36),
   (".", 0x37), (">", 0x37),
   ("/", 0x38), ("?", 0x38),
   -- Arrow keys
   ("RIGHT", 0x4f), ("LEFT", 0x50), ("DOWN", 0x51), ("UP", 0x52)]

/-- `keys_with_shift`: keys that share a hex code with another key and need
the SHIFT modifier to be produced. -/
def keys_with_shift : List String :=
  ["!", "@", "#", "$", "%", "^", "&", "*", "(", ")", "_",
   "+", "\x7b", "\x7d", "|", ":", "\"", "~", "<", ">", "?"]

/-- `key_to_hex(self, key)`: translate a key to its (US) HID hex code and
possible modifier key. -/
def key_to_hex (st : EmuState) (key : String) : Except KbError (Nat × Nat) :=
  match key_codes.lookup key with
  | some hex_key =>
      -- Check if the key needs SHIFT modifier
      .ok (hex_key,
           if keys_with_shift.contains key
           then (modifier_codes.lookup "SHIFT_L").getD 0 else 0)
  | none =>
      -- If the key isn't in key_codes, it should be a normal letter
      match key.data with
      | [c] =>
          if 'A' ≤ c ∧ c ≤ 'Z' then
            .ok (c.toNat - 'A'.toNat + 0x04, (modifier_codes.lookup "SHIFT_L").getD 0)
          else if 'a' ≤ c ∧ c ≤ 'z' then
            .ok (c.toNat - 'a'.toNat + 0x04, 0)
          else
            .error (.translateError st.filepath st.line_number
              ("Couldn't translate key: '" ++ key ++ "'"))
      | _ =>
          .error (.translateError st.filepath st.line_number
            ("Couldn't translate key: <" ++ key ++ ">"))

/-- Whether write attempt `t` of a send succeeds under the sink model
`outcomes` (attempts beyond the recorded outage succeed). -/
def attemptOk (outcomes : List Bool) (t : Nat) : Bool :=
  (outcomes.get? t).getD true

/-- Result of the retry loop of `send_a_key`: total write attempts made,
and whether the loop returned (rather than falling through to the raise). -/
structure LoopResult where
  attempts : Nat
  success : Bool
deriving DecidableEq, Repr

/-- The retry loop for a numeric `timeout`: `time = 0; while time < timeout:
try: write... except IOError: time += 1; sleep(1) else: return`.  Argument
`remaining` is `timeout - time`. -/
def send_loop_code (outcomes : List Bool) : Nat → Nat → LoopResult
  | 0, time => ⟨time, false⟩
  | remaining + 1, time =>
      if attemptOk outcomes time then ⟨time + 1, true⟩
      else send_loop_code outcomes remaining (time + 1)

/-- A failed attempt is an in-range `false` entry of the outage list. -/
theorem attemptOk_false_lt {outcomes : List Bool} {t : Nat}
    (h : attemptOk outcomes t = false) : t < outcomes.length := by
  by_contra hlt
  have h0 : outcomes[t]? = none := List.getElem?_eq_none (Nat.le_of_not_lt hlt)
  simp [attemptOk, List.get?_eq_getElem?, h0] at h

/-- The retry loop when `timeout` is `b"\x00"`, with explicit fuel.  The
fuel never runs out on a reachable path: once `time` passes
`outcomes.length` every attempt succeeds, so the `fuel = 0` base case (only
reachable with `time > outcomes.length`) returns what the loop body would:
success on the current attempt. -/
def send_loop_b0_fuel (outcomes : List Bool) : Nat → Nat → Nat
  | 0, time => time + 1
  | fuel + 1, time =>
      if attemptOk outcomes time then time + 1
      else send_loop_b0_fuel outcomes fuel (time + 1)

/-- The retry loop when `timeout` is `b"\x00"`: in Python 2 `time < b"\x00"`
is always `True`, so the loop runs until an attempt succeeds (which the
finite-outage sink model guarantees within `outcomes.length + 1`
iterations). -/
def send_loop_b0 (outcomes : List Bool) (time : Nat) : Nat :=
  send_loop_b0_fuel outcomes (outcomes.length + 1) time

/-- The retry loop of `send_a_key`, for either runtime type of `timeout`. -/
def send_loop (outcomes : List Bool) : PyMod → LoopResult
  | .code n => send_loop_code outcomes n 0
  | .bytes0 => ⟨send_loop_b0 outcomes 0, true⟩

/-- The message of the module's `TimeoutError`. -/
def connectMsg : String := "Keyboard emulator couldn't connect to host"

/-- Successful result of `send_a_key`: the reports written to the sink (press
then release) and the number of write attempts that were made. -/
structure SendOk where
  writes : List Report
  attempts : Nat
deriving DecidableEq, Repr

/-- `send_a_key(self, key, timeout=20)`: build the 8-byte report from
`key_to_hex` and the modifier state, then write it followed by the empty
report, retrying on `IOError` while `time < timeout`. -/
def send_a_key (outcomes : List Bool) (st : EmuState) (key : String)
    (timeout : PyMod) : Except KbError SendOk :=
  match key_to_hex st key with
  | .error e => .error e
  | .ok (hex_key, _modifier) =>
      -- Override self.modifier if the key needs a specific one
      let modifier : Nat := if _modifier ≠ 0 then _modifier else pymodByte st.modifier
      let press : Report := [modifier, 0, hex_key, 0, 0, 0, 0, 0]
      let r := send_loop outcomes timeout
      if r.success then .ok ⟨[press, emptyReport], r.attempts⟩
      else .error (.timeoutError connectMsg)


/-- The scan of `parse_special` on the suffix of the line starting right
after the `'<'`: add letters to `special` until `'>'` is found; `none` is
the `IndexError` of running past the end of the line.  On success also
returns how many characters stand before the `'>'` (the offset of the
closing `'>'` from the start of the scan). -/
def scanSpecialL : List Char → Option (String × Nat)
  | [] => none
  | c :: rest =>
      if c = '>' then some ("", 0)
      else
        match scanSpecialL rest with
        | none => none
        | some (s, k) => some (⟨c :: s.data⟩, k + 1)

/-- `scanSpecialL` at an absolute index: the name between index `i` and the
next `'>'`, and the absolute index of that `'>'` (the value of the Python
iterator when the `while line[i] != ">"` loop exits). -/
def scanSpecial (line : List Char) (i : Nat) : Option (String × Nat) :=
  match scanSpecialL (line.drop i) with
  | none => none
  | some (s, k) => some (s, i + k)

/-- The scan of `parse_text` on the suffix starting right after the opening
quote: collect the keys sent until an unescaped `'"'`; a `'\'` consumes the
following character, which is collected whatever it is.  Returns the
collected keys and `some` offset of the closing quote, or `none` for the
`IndexError` of running past the end (the keys collected before that point
were already sent by the loop). -/
def scanTextL : List Char → List Char × Option Nat
  | [] => ([], none)
  | c :: rest =>
      if c = '"' then ([], some 0)
      else if c = '\\' then
        match rest with
        | [] => ([], none)
        | c2 :: rest2 =>
            let r := scanTextL rest2
            (c2 :: r.1, r.2.map (· + 2))
      else
        let r := scanTextL rest
        (c :: r.1, r.2.map (· + 1))

/-- `scanTextL` at an absolute index: the keys of the quoted span and the
absolute index of the closing quote, if found. -/
def scanText (line : List Char) (i : Nat) : List Char × Option Nat :=
  let r := scanTextL (line.drop i)
  (r.1, r.2.map (i + ·))

/-- Successful result of `parse_special`: the updated state, the returned
iterator (index of the closing `'>'`), and the reports written. -/
structure SpecialRes where
  st : EmuState
  i : Nat
  writes : List Report
deriving DecidableEq, Repr

/-- `parse_special(self, line, i)`: scan the name between `'<'` and `'>'`;
a modifier name toggles `self.modifier`, any other name is sent with
`self.send_a_key(special, self.modifier)` — the modifier state passed as
the second positional argument, which is `timeout`. -/
def parse_special (outcomes : List Bool) (st : EmuState) (line : List Char)
    (i : Nat) : Except KbError SpecialRes :=
  match scanSpecial line (i + 1) with
  | none => .error (.fileError st.filepath st.line_number "Didn't find closing '>'")
  | some (special, j) =>
      -- If the special key is a modifier, toggle it
      match modifier_codes.lookup special with
      | some mcode =>
          if pymodEqNat mcode st.modifier then
            .ok ⟨{st with modifier := .bytes0}, j, []⟩
          else
            .ok ⟨{st with modifier := .code mcode}, j, []⟩
      -- If special key is a normal key, send it
      | none =>
          match send_a_key outcomes st special st.modifier with
          | .error e => .error e
          | .ok r => .ok ⟨st, j, r.writes⟩

/-- The sends of the loop body of `parse_text`: each collected key is sent
with `self.send_a_key(key)` (default `timeout=20`); the first raised error
stops the loop.  Returns the reports written and the error, if any. -/
def sendKeys (outcomes : List Bool) (st : EmuState) :
    List Char → List Report × Option KbError
  | [] => ([], none)
  | c :: rest =>
      match send_a_key outcomes st (String.singleton c) (.code 20) with
      | .error e => ([], some e)
      | .ok r =>
          let t := sendKeys outcomes st rest
          (r.writes ++ t.1, t.2)

/-- `parse_text(self, line, i)`: send the keys of the quoted span one at a
time; if the closing `'"'` is never reached, the keys scanned before the
`IndexError` were already sent and then a `FileError` is raised.  Returns
the reports written and either the updated state and iterator (index of the
closing quote) or the raised error. -/
def parse_text (outcomes : List Bool) (st : EmuState) (line : List Char)
    (i : Nat) : List Report × Except KbError (EmuState × Nat) :=
  let scanned := scanText line (i + 1)
  let sent := sendKeys outcomes st scanned.1
  match sent.2 with
  | some e => (sent.1, .error e)
  | none =>
      match scanned.2 with
      | some j => (sent.1, .ok (st, j))
      | none => (sent.1, .error (.fileError st.filepath st.line_number
                  "Didn't find closing \""))

/-- `scanSpecial` only succeeds at an index at or beyond its start. -/
theorem scanSpecial_ge {line : List Char} {i : Nat} {s : String} {j : Nat}
    (h : scanSpecial line i = some (s, j)) : i ≤ j := by
  rw [scanSpecial] at h
  match hl : scanSpecialL (line.drop i) with
  | none => rw [hl] at h; exact Option.noConfusion h
  | some (s', k) =>
      rw [hl] at h
      simp at h
      omega

/-- `scanText` only reports a closing quote at or beyond its start. -/
theorem scanText_ge {line : List Char} {i : Nat} {ks : List Char} {j : Nat}
    (h : scanText line i = (ks, some j)) : i ≤ j := by
  rw [scanText] at h
  match hl : (scanTextL (line.drop i)).2 with
  | none => simp [hl] at h
  | some k =>
      simp [hl] at h
      omega

/-- A successful `parse_special` returns an iterator strictly beyond `i`. -/
theorem parse_special_ge {outcomes : List Bool} {st : EmuState}
    {line : List Char} {i : Nat} {r : SpecialRes}
    (h : parse_special outcomes st line i = .ok r) : i + 1 ≤ r.i := by
  rw [parse_special] at h
  split at h
  · exact Except.noConfusion h
  · rename_i special j heq
    have hij : i + 1 ≤ j := scanSpecial_ge heq
    split at h
    · split at h <;> (cases h; exact hij)
    · split at h
      · exact Except.noConfusion h
      · cases h; exact hij

/-- A successful `parse_text` returns an iterator strictly beyond `i`. -/
theorem parse_text_ge {outcomes : List Bool} {st : EmuState}
    {line : List Char} {i : Nat} {ws : List Report} {st2 : EmuState} {j : Nat}
    (h : parse_text outcomes st line i = (ws, .ok (st2, j))) : i + 1 ≤ j := by
  rw [parse_text] at h
  match he : (sendKeys outcomes st (scanText line (i + 1)).1).2 with
  | some e => simp [he] at h
  | none =>
      simp [he] at h
      match ho : (scanText line (i + 1)).2 with
      | none => simp [ho] at h
      | some j' =>
          simp [ho] at h
          obtain ⟨-, -, h3⟩ := h
          subst h3
          exact scanText_ge (by rw [← ho])

/-- The per-character loop of `parse_line` (everything after the `DELAY`
check), with explicit fuel: `'<'` starts a special key, `'"'` starts text,
`'#'` ends the line, `' '` is ignored, anything else raises `FileError`.
Returns the reports written and either the update of the state or the
raised error.  Each loop iteration moves `i` strictly forward
(`parse_special_ge`, `parse_text_ge`), so fuel `line.length + 1 - i`
suffices; the `fuel = 0` base case is only reachable with `i > line.length`
and returns what the loop would: termination with no further writes. -/
def parse_chars_fuel (outcomes : List Bool) :
    Nat → EmuState → List Char → Nat → List Report × Except KbError EmuState
  | 0, st, _, _ => ([], .ok st)
  | fuel + 1, st, line, i =>
      match line.get? i with
      | none => ([], .ok st)
      | some key =>
          if key = '<' then
            match parse_special outcomes st line i with
            | .error e => ([], .error e)
            | .ok r =>
                let t := parse_chars_fuel outcomes fuel r.st line (r.i + 1)
                (r.writes ++ t.1, t.2)
          else if key = '"' then
            match parse_text outcomes st line i with
            | (ws, .error e) => (ws, .error e)
            | (ws, .ok (st2, j)) =>
                let t := parse_chars_fuel outcomes fuel st2 line (j + 1)
                (ws ++ t.1, t.2)
          else if key = '#' then ([], .ok st)
          else if key = ' ' then parse_chars_fuel outcomes fuel st line (i + 1)
          else ([], .error (.fileError st.filepath st.line_number
                  ("Found '" ++ String.singleton key ++ "' outside of <> and \"\"")))

/-- The per-character loop of `parse_line`, started with enough fuel for
the whole line. -/
def parse_chars (outcomes : List Bool) (st : EmuState) (line : List Char)
    (i : Nat) : List Report × Except KbError EmuState :=
  parse_chars_fuel outcomes (line.length + 1) st line i

/-- ASCII digit test, as Python `float` accepts in decimal literals. -/
def isDigitC (c : Char) : Bool := '0' ≤ c && c ≤ '9'

/-- Value of a digit run. -/
def digitsVal (ds : List Char) : Nat :=
  ds.foldl (fun a c => 10 * a + (c.toNat - 48)) 0

/-- Strip an optional leading sign; returns (negative?, rest). -/
def splitSign : List Char → Bool × List Char
  | '-' :: t => (true, t)
  | '+' :: t => (false, t)
  | t => (false, t)

/-- Parse the optional exponent suffix of a Python float literal: empty, or
`(e|E) [sign] digits`. -/
def parseExpPart (s : List Char) : Option Int :=
  match s with
  | [] => some 0
  | c :: r =>
      if c = 'e' ∨ c = 'E' then
        let sg := splitSign r
        let ds := sg.2.takeWhile isDigitC
        if ds.isEmpty ∨ ¬(sg.2.dropWhile isDigitC).isEmpty then none
        else some (if sg.1 then -(digitsVal ds : Int) else (digitsVal ds : Int))
      else none

/-- Python `str.strip()` whitespace test (ASCII whitespace). -/
def pyIsSpace (c : Char) : Bool :=
  c = ' ' ∨ c = '\t' ∨ c = '\n' ∨ c = '\r' ∨
  c = Char.ofNat 11 ∨ c = Char.ofNat 12

/-- Python `str.strip()` on the characters of a string: drop whitespace
from both ends. -/
def pyStripL (s : List Char) : List Char :=
  ((s.dropWhile pyIsSpace).reverse.dropWhile pyIsSpace).reverse

/-- Python `str.strip()`. -/
def pyStrip (s : String) : String := ⟨pyStripL s.data⟩

/-- Python `str.split(sep)` for a one-character separator: always returns
at least one (possibly empty) group. -/
def pySplitChar (sep : Char) : List Char → List (List Char)
  | [] => [[]]
  | c :: rest =>
      let r := pySplitChar sep rest
      if c = sep then [] :: r
      else
        match r with
        | [] => [[c]]
        | g :: gs => (c :: g) :: gs

/-- Python `float(s)` on the characters of an already-stripped string,
modelled exactly on the finite decimal forms
`[sign] (digits [. digits] | . digits) [(e|E) [sign] digits]`; the value is
the exact rational of the literal.  (`inf`, `nan` and underscore separators
are not modelled.) -/
def pyFloat (s : List Char) : Option ℚ :=
  let sg := splitSign s
  let ip := sg.2.takeWhile isDigitC
  let s2 := sg.2.dropWhile isDigitC
  let fps3 : List Char × List Char :=
    match s2 with
    | '.' :: t => (t.takeWhile isDigitC, t.dropWhile isDigitC)
    | t => ([], t)
  let fp := fps3.1
  if ip.isEmpty ∧ fp.isEmpty then none
  else
    match parseExpPart fps3.2 with
    | none => none
    | some e =>
        -- the exact rational digits·10^(e - |fp|), kept kernel-reducible
        let digits : Nat := digitsVal (ip ++ fp)
        let v : ℚ :=
          if 0 ≤ e then
            mkRat ((digits : Int) * Int.pow 10 e.toNat) (Nat.pow 10 fp.length)
          else
            mkRat (digits : Int) (Nat.pow 10 fp.length * Nat.pow 10 (-e).toNat)
        some (if sg.1 then -v else v)

/-- `parse_line(self, line)`: a line whose first five characters are
`DELAY` sets `self.delay_between_keys = float(line.split('=')[1].strip())`
(an absent `=` raises an uncaught `IndexError`, an unparsable value raises
`FileError` quoting `line[6:].strip()`); any other line goes through the
per-character loop. -/
def parse_line (outcomes : List Bool) (st : EmuState) (line : String) :
    List Report × Except KbError EmuState :=
  -- If line starts with 'DELAY' set the delay
  if line.data.take 5 = "DELAY".data then
    match (pySplitChar '=' line.data).get? 1 with
    | none => ([], .error .indexError)
    | some part =>
        match pyFloat (pyStripL part) with
        | some v => ([], .ok {st with delay_between_keys := v})
        | none => ([], .error (.fileError st.filepath st.line_number
                    ("'" ++ String.mk (pyStripL (line.data.drop 6)) ++ "' not a number")))
  else
    parse_chars outcomes st line.data 0

/-- The loop of `send_keystrokes_from_file`: strip each line, skip blank
lines, parse the rest, incrementing `self.line_number` after each line; a
raised error aborts the remaining lines.  Returns all reports written and
either the final state or the error. -/
def runLines (outcomes : List Bool) (st : EmuState) :
    List String → List Report × Except KbError EmuState
  | [] => ([], .ok st)
  | l :: rest =>
      let stripped := pyStrip l
      if stripped = "" then
        runLines outcomes {st with line_number := st.line_number + 1} rest
      else
        match parse_line outcomes st stripped with
        | (ws, .error e) => (ws, .error e)
        | (ws, .ok st2) =>
            let t := runLines outcomes {st2 with line_number := st2.line_number + 1} rest
            (ws ++ t.1, t.2)

/-- The state at the start of `send_keystrokes_from_file(filepath)`: delay
and modifier reset, `self.line_number = 1`. -/
def initState (filepath : String) : EmuState :=
  { filepath := filepath, delay_between_keys := 0, modifier := .bytes0,
    line_number := 1 }

/-- `send_keystrokes_from_file(self, filepath)`, with the file's lines
supplied as a list. -/
def send_keystrokes_from_file (outcomes : List Bool) (filepath : String)
    (lines : List String) : List Report × Except KbError EmuState :=
  runLines outcomes (initState filepath) lines

/-! ## Claim theorems -/

/-- C1: every single ASCII letter is absent from the key table and resolved
arithmetically by `key_to_hex`: a lowercase letter with code `n` (`97..122`)
yields HID usage `n - 97 + 0x04` (so `0x04..0x1D`) with no implied modifier,
and an uppercase letter with code `n` (`65..90`) yields usage `n - 65 + 0x04`
(the same range) with implied modifier SHIFT_L (`0x02`). -/
theorem letters_resolved_arithmetically (st : EmuState) (n : Nat) :
    (97 ≤ n → n ≤ 122 →
      key_codes.lookup (String.singleton (Char.ofNat n)) = none ∧
      key_to_hex st (String.singleton (Char.ofNat n)) = .ok (n - 97 + 0x04, 0)) ∧
    (65 ≤ n → n ≤ 90 →
      key_codes.lookup (String.singleton (Char.ofNat n)) = none ∧
      key_to_hex st (String.singleton (Char.ofNat n)) = .ok (n - 65 + 0x04, 0x02)) := by
  constructor <;> intro h1 h2 <;> interval_cases n <;> exact ⟨rfl, rfl⟩

/-- Witness for C1 at `'a'` (code 97) and `'Z'` (code 90). -/
theorem letters_resolved_arithmetically_w :
    (key_codes.lookup (String.singleton (Char.ofNat 97)) = none ∧
      key_to_hex (initState "script") (String.singleton (Char.ofNat 97)) = .ok (0x04, 0)) ∧
    (key_codes.lookup (String.singleton (Char.ofNat 90)) = none ∧
      key_to_hex (initState "script") (String.singleton (Char.ofNat 90)) = .ok (0x1D, 0x02)) :=
  ⟨(letters_resolved_arithmetically (initState "script") 97).1 (by decide) (by decide),
   (letters_resolved_arithmetically (initState "script") 90).2 (by decide) (by decide)⟩

/-- C2: every successful `send_a_key` writes exactly the 8-byte press report
`[modifier, 0, key_usage, 0, 0, 0, 0, 0]` (only bytes 0 and 2 can be
non-zero) immediately followed by the all-zero 8-byte release report, and
nothing else. -/
theorem send_press_release_shape (outcomes : List Bool) (st : EmuState)
    (key : String) (timeout : PyMod) (r : SendOk)
    (h : send_a_key outcomes st key timeout = .ok r) :
    ∃ m k, r.writes = [[m, 0, k, 0, 0, 0, 0, 0], List.replicate 8 0] := by
  rw [send_a_key] at h
  split at h
  · exact Except.noConfusion h
  · by_cases hs : (send_loop outcomes timeout).success = true
    · rw [if_pos hs] at h
      cases h
      exact ⟨_, _, rfl⟩
    · rw [if_neg hs] at h
      exact Except.noConfusion h

/-- Witness for C2: sending `'a'` over an always-available sink. -/
theorem send_press_release_shape_w :
    ∃ m k, (SendOk.mk [[0, 0, 4, 0, 0, 0, 0, 0], List.replicate 8 0] 1).writes =
      [[m, 0, k, 0, 0, 0, 0, 0], List.replicate 8 0] :=
  send_press_release_shape [] (initState "script") "a" (.code 20) _ (by decide)

/-- `pymodEqNat` decides equality with a toggled-on modifier code. -/
theorem pymodEqNat_iff (n : Nat) (m : PyMod) :
    pymodEqNat n m = true ↔ m = .code n := by
  cases m
  · simp [pymodEqNat]
  · simp [pymodEqNat]
    exact eq_comm

/-- C3: a `SpecialKeyName` token naming a modifier toggles the single
modifier slot: if the named modifier's code equals the active modifier it
is cleared to `b"\x00"`, otherwise it becomes exactly that code (replacing
any different active modifier); no report is written.  In particular
`<SHIFT_L><SHIFT_L>` from the initial state leaves the state unchanged,
with no key event from either toggle. -/
theorem modifier_toggle (outcomes : List Bool) (st : EmuState)
    (line : List Char) (i : Nat) (special : String) (j mcode : Nat)
    (hscan : scanSpecial line (i + 1) = some (special, j))
    (hmod : modifier_codes.lookup special = some mcode) :
    parse_special outcomes st line i =
      .ok ⟨{st with modifier :=
              if st.modifier = .code mcode then .bytes0 else .code mcode},
           j, []⟩ ∧
    parse_line [] (initState "script") "<SHIFT_L><SHIFT_L>" =
      ([], .ok (initState "script")) := by
  constructor
  · by_cases he : st.modifier = .code mcode
    · simp [parse_special, hscan, hmod, he, pymodEqNat]
    · have ht : ¬ pymodEqNat mcode st.modifier = true :=
        fun hc => he ((pymodEqNat_iff _ _).mp hc)
      simp [parse_special, hscan, hmod, ht, he]
  · decide

/-- Witness for C3: toggling `SHIFT_L` on from the initial state. -/
theorem modifier_toggle_w :
    parse_special [] (initState "script") "<SHIFT_L>".data 0 =
      .ok ⟨{initState "script" with modifier :=
              (if (initState "script").modifier = PyMod.code 2 then PyMod.bytes0
               else PyMod.code 2)},
           8, []⟩ ∧
    parse_line [] (initState "script") "<SHIFT_L><SHIFT_L>" =
      ([], .ok (initState "script")) :=
  modifier_toggle [] (initState "script") "<SHIFT_L>".data 0 "SHIFT_L" 8 2
    (by decide) (by decide)

/-- Characterization of a successful `send_a_key`: the reports written are
the press report (modifier byte: the implied modifier if non-zero, else the
byte of `self.modifier`) and the release report, and the retry loop
returned. -/
theorem send_a_key_ok (outcomes : List Bool) (st : EmuState) (key : String)
    (timeout : PyMod) (hex imod : Nat) (r : SendOk)
    (hk : key_to_hex st key = .ok (hex, imod))
    (hs : send_a_key outcomes st key timeout = .ok r) :
    r = ⟨[[if imod ≠ 0 then imod else pymodByte st.modifier, 0, hex,
           0, 0, 0, 0, 0], emptyReport],
         (send_loop outcomes timeout).attempts⟩ ∧
    (send_loop outcomes timeout).success = true := by
  rw [send_a_key, hk] at hs
  replace hs :
      (if (send_loop outcomes timeout).success = true then
        Except.ok (⟨[[if imod ≠ 0 then imod else pymodByte st.modifier, 0, hex,
                      0, 0, 0, 0, 0], emptyReport],
                    (send_loop outcomes timeout).attempts⟩ : SendOk)
      else Except.error (KbError.timeoutError connectMsg)) = Except.ok r := hs
  by_cases hsc : (send_loop outcomes timeout).success = true
  · rw [if_pos hsc] at hs
    cases hs
    exact ⟨rfl, hsc⟩
  · rw [if_neg hsc] at hs
    exact Except.noConfusion hs

/-- C4: when the resolved key carries an implied modifier, the press
report's modifier byte is that implied modifier, overriding the toggled
modifier for that one keystroke; with no implied modifier the toggled
modifier's byte is used.  Sending keys never changes the interpreter state:
`parse_text` and the send branch of `parse_special` return the state they
were given (so `active_modifier` and `inter_key_delay` are unchanged). -/
theorem implied_modifier_override (outcomes : List Bool) (st : EmuState)
    (key : String) (timeout : PyMod) (hex imod : Nat) (r : SendOk)
    (hk : key_to_hex st key = .ok (hex, imod))
    (hs : send_a_key outcomes st key timeout = .ok r) :
    (imod ≠ 0 → r.writes = [[imod, 0, hex, 0, 0, 0, 0, 0], emptyReport]) ∧
    (imod = 0 →
      r.writes = [[pymodByte st.modifier, 0, hex, 0, 0, 0, 0, 0], emptyReport]) ∧
    (∀ sink line i ws st2 j,
      parse_text sink st line i = (ws, .ok (st2, j)) → st2 = st) ∧
    (∀ sink line i rr special j,
      scanSpecial line (i + 1) = some (special, j) →
      modifier_codes.lookup special = none →
      parse_special sink st line i = .ok rr → rr.st = st) := by
  obtain ⟨rfl, -⟩ := send_a_key_ok outcomes st key timeout hex imod r hk hs
  refine ⟨?_, ?_, ?_, ?_⟩
  · intro him
    simp [him]
  · intro him
    simp [him]
  · intro sink line i ws st2 j h
    rw [parse_text] at h
    split at h
    · simp at h
    · split at h
      · simp at h
        exact h.2.1.symm
      · simp at h
  · intro sink line i rr special j hscan hmod hps
    simp [parse_special, hscan, hmod] at hps
    split at hps
    · exact Except.noConfusion hps
    · cases hps
      rfl

/-- Witness for C4: sending `'A'` (implied SHIFT_L) while SHIFT_R (0x20) is
toggled: the press modifier byte is the implied 0x02. -/
theorem implied_modifier_override_w :
    (SendOk.mk [[2, 0, 4, 0, 0, 0, 0, 0], emptyReport] 1).writes =
      [[2, 0, 4, 0, 0, 0, 0, 0], emptyReport] :=
  (implied_modifier_override [] {initState "script" with modifier := .code 0x20}
    "A" (.code 20) 4 2 _ (by decide) (by decide)).1 (by decide)

/-- C5 counterexample: on the line `DELAY=-1` the part after `=` parses as
the number −1, which is negative, yet `parse_line` raises no syntax error:
it sets `inter_key_delay` to −1 and emits nothing.  This refutes the claim
that only non-negative values are accepted. -/
theorem delay_negative_accepted :
    parse_line [] (initState "script") "DELAY=-1" =
      ([], .ok {initState "script" with delay_between_keys := -1}) ∧
    ¬ (0 : ℚ) ≤ -1 := by
  exact ⟨by decide, by norm_num⟩

/-- C5 amended: a line whose first five characters are `DELAY` and which
contains `=` is a whole-line directive: if the text between the first and
second `=` (or the end of the line), stripped, parses as a float —
negative values included — `inter_key_delay` is set to that value and no
key event is emitted; otherwise the line fails with a `FileError` quoting
`line[6:].strip()`. -/
theorem delay_directive_amended (outcomes : List Bool) (st : EmuState)
    (line : String) (part : List Char)
    (hd : line.data.take 5 = "DELAY".data)
    (hp : (pySplitChar '=' line.data).get? 1 = some part) :
    (∀ v, pyFloat (pyStripL part) = some v →
      parse_line outcomes st line = ([], .ok {st with delay_between_keys := v})) ∧
    (pyFloat (pyStripL part) = none →
      parse_line outcomes st line =
        ([], .error (.fileError st.filepath st.line_number
           ("'" ++ String.mk (pyStripL (line.data.drop 6)) ++ "' not a number")))) := by
  rw [List.get?_eq_getElem?] at hp
  constructor
  · intro v hv
    simp [parse_line, hd, hp, hv]
  · intro hv
    simp [parse_line, hd, hp, hv]

/-- Witness for C5's amended claim: `DELAY = 0.5` sets the delay to 1/2,
and `DELAY=abc` fails with the quoted text. -/
theorem delay_directive_amended_w :
    parse_line [] (initState "script") "DELAY = 0.5" =
      ([], .ok {initState "script" with delay_between_keys := mkRat 1 2}) ∧
    parse_line [] (initState "script") "DELAY=abc" =
      ([], .error (.fileError "script" 1 "'abc' not a number")) := by
  constructor
  · exact (delay_directive_amended [] (initState "script") "DELAY = 0.5"
      " 0.5".data (by decide) (by decide)).1 (mkRat 1 2) (by decide)
  · have h := (delay_directive_amended [] (initState "script") "DELAY=abc"
      "abc".data (by decide) (by decide)).2 (by decide)
    simpa using h

/-- If the suffix holds no `'>'`, the special-key scan runs off the end. -/
theorem scanSpecialL_none (xs : List Char) (h : ∀ c ∈ xs, c ≠ '>') :
    scanSpecialL xs = none := by
  induction xs with
  | nil => rfl
  | cons c rest ih =>
      rw [scanSpecialL]
      rw [if_neg (h c (List.mem_cons_self c rest))]
      rw [ih (fun d hd => h d (List.mem_cons_of_mem c hd))]

/-- The unterminated-span behaviour of `parse_special`: with no `'>'` after
position `i`, it raises `FileError` with the current line number. -/
theorem parse_special_no_gt (outcomes : List Bool) (st : EmuState)
    (line : List Char) (i : Nat) (h : ∀ c ∈ line.drop (i + 1), c ≠ '>') :
    parse_special outcomes st line i =
      .error (.fileError st.filepath st.line_number "Didn't find closing '>'") := by
  rw [parse_special, scanSpecial, scanSpecialL_none _ h]

/-- `parse_special` keeps `filepath` and `line_number` (it only ever
changes `modifier`). -/
theorem parse_special_ok_st {outcomes : List Bool} {st : EmuState}
    {line : List Char} {i : Nat} {r : SpecialRes}
    (h : parse_special outcomes st line i = .ok r) :
    r.st.filepath = st.filepath ∧ r.st.line_number = st.line_number := by
  rw [parse_special] at h
  split at h
  · exact Except.noConfusion h
  · split at h
    · split at h <;> (cases h; exact ⟨rfl, rfl⟩)
    · split at h
      · exact Except.noConfusion h
      · cases h
        exact ⟨rfl, rfl⟩

/-- `parse_text` returns the state it was given. -/
theorem parse_text_ok_st {outcomes : List Bool} {st : EmuState}
    {line : List Char} {i : Nat} {ws : List Report} {st2 : EmuState} {j : Nat}
    (h : parse_text outcomes st line i = (ws, .ok (st2, j))) : st2 = st := by
  rw [parse_text] at h
  split at h
  · simp at h
  · split at h
    · simp at h
      exact h.2.1.symm
    · simp at h

/-- The per-character loop keeps `filepath` and `line_number`. -/
theorem parse_chars_fuel_ok_st (outcomes : List Bool) :
    ∀ (fuel : Nat) (st : EmuState) (line : List Char) (i : Nat)
      (ws : List Report) (st' : EmuState),
      parse_chars_fuel outcomes fuel st line i = (ws, .ok st') →
      st'.filepath = st.filepath ∧ st'.line_number = st.line_number := by
  intro fuel
  induction fuel with
  | zero =>
      intro st line i ws st' h
      simp only [parse_chars_fuel] at h
      simp at h
      rw [← h.2]
      exact ⟨rfl, rfl⟩
  | succ fuel ih =>
      intro st line i ws st' h
      simp only [parse_chars_fuel] at h
      split at h
      · simp at h
        rw [← h.2]
        exact ⟨rfl, rfl⟩
      · split at h
        · split at h
          · simp at h
          · rename_i r heq
            rw [Prod.mk.injEq] at h
            obtain ⟨h1, h2⟩ := h
            have hps := parse_special_ok_st heq
            have hrec := ih r.st line (r.i + 1)
              (parse_chars_fuel outcomes fuel r.st line (r.i + 1)).1 st'
              (by rw [← h2])
            exact ⟨hrec.1.trans hps.1, hrec.2.trans hps.2⟩
        · split at h
          · split at h
            · simp at h
            · rename_i pws st2 j heq2
              rw [Prod.mk.injEq] at h
              obtain ⟨h1, h2⟩ := h
              have hpt : st2 = st := parse_text_ok_st heq2
              have hrec := ih st2 line (j + 1)
                (parse_chars_fuel outcomes fuel st2 line (j + 1)).1 st'
                (by rw [← h2])
              rw [hpt] at hrec
              exact hrec
          · split at h
            · simp at h
              rw [← h.2]
              exact ⟨rfl, rfl⟩
            · split at h
              · exact ih st line (i + 1) ws st' h
              · simp at h

/-- A successfully parsed line keeps `filepath` and `line_number`. -/
theorem parse_line_ok_st {outcomes : List Bool} {st : EmuState} {l : String}
    {ws : List Report} {st' : EmuState}
    (h : parse_line outcomes st l = (ws, .ok st')) :
    st'.filepath = st.filepath ∧ st'.line_number = st.line_number := by
  rw [parse_line] at h
  split at h
  · split at h
    · simp at h
    · split at h
      · simp at h
        rw [← h.2]
        exact ⟨rfl, rfl⟩
      · simp at h
  · rw [parse_chars] at h
    exact parse_chars_fuel_ok_st outcomes _ st l.data 0 ws st' h

/-- `runLines` over a concatenation composes: the writes of the prefix come
first, and the suffix runs only if the prefix raised no error. -/
theorem runLines_append (outcomes : List Bool) :
    ∀ (pre rest : List String) (st : EmuState),
      runLines outcomes st (pre ++ rest) =
        (match runLines outcomes st pre with
         | (ws, .error e) => (ws, .error e)
         | (ws, .ok st') =>
             (ws ++ (runLines outcomes st' rest).1,
              (runLines outcomes st' rest).2)) := by
  intro pre
  induction pre with
  | nil =>
      intro rest st
      simp [runLines]
  | cons l pre ih =>
      intro rest st
      simp only [List.cons_append, runLines]
      by_cases hb : pyStrip l = ""
      · simp only [if_pos hb]
        exact ih rest _
      · simp only [if_neg hb]
        rcases hpl : parse_line outcomes st (pyStrip l) with ⟨ws1, res⟩
        cases res with
        | error e => simp [hpl]
        | ok st2 =>
            rcases hrp : runLines outcomes
                {st2 with line_number := st2.line_number + 1} pre with ⟨ws2, res2⟩
            cases res2 with
            | error e => simp [hpl, ih, hrp]
            | ok st3 => simp [hpl, ih, hrp, List.append_assoc]

/-- A successful `runLines` keeps `filepath` and advances `line_number` by
the number of lines consumed. -/
theorem runLines_ok_st (outcomes : List Bool) :
    ∀ (lines : List String) (st : EmuState) (ws : List Report) (st' : EmuState),
      runLines outcomes st lines = (ws, .ok st') →
      st'.filepath = st.filepath ∧
      st'.line_number = st.line_number + lines.length := by
  intro lines
  induction lines with
  | nil =>
      intro st ws st' h
      simp [runLines] at h
      rw [← h.2]
      exact ⟨rfl, rfl⟩
  | cons l rest ih =>
      intro st ws st' h
      simp only [runLines] at h
      split at h
      · have hrec := ih _ _ _ h
        simp only [List.length_cons]
        constructor
        · exact hrec.1
        · rw [hrec.2]
          simp
          omega
      · split at h
        · simp at h
        · rename_i ws1 st2 hpl
          rw [Prod.mk.injEq] at h
          obtain ⟨h1, h2⟩ := h
          have hps := parse_line_ok_st hpl
          have hrec := ih {st2 with line_number := st2.line_number + 1}
            (runLines outcomes {st2 with line_number := st2.line_number + 1} rest).1
            st' (by rw [← h2])
          simp only [List.length_cons]
          constructor
          · exact hrec.1.trans hps.1
          · rw [hrec.2]
            simp
            rw [hps.2]
            omega

/-- One unfolding step of the per-character loop (the defining equation at
positive fuel, usable without unfolding the recursive occurrences). -/
theorem parse_chars_fuel_step (outcomes : List Bool) (fuel : Nat)
    (st : EmuState) (line : List Char) (i : Nat) :
    parse_chars_fuel outcomes (fuel + 1) st line i =
      match line.get? i with
      | none => ([], .ok st)
      | some key =>
          if key = '<' then
            match parse_special outcomes st line i with
            | .error e => ([], .error e)
            | .ok r =>
                let t := parse_chars_fuel outcomes fuel r.st line (r.i + 1)
                (r.writes ++ t.1, t.2)
          else if key = '"' then
            match parse_text outcomes st line i with
            | (ws, .error e) => (ws, .error e)
            | (ws, .ok (st2, j)) =>
                let t := parse_chars_fuel outcomes fuel st2 line (j + 1)
                (ws ++ t.1, t.2)
          else if key = '#' then ([], .ok st)
          else if key = ' ' then parse_chars_fuel outcomes fuel st line (i + 1)
          else ([], .error (.fileError st.filepath st.line_number
                  ("Found '" ++ String.singleton key ++ "' outside of <> and \"\""))) :=
  rfl

/-- A `'<'` whose `parse_special` raises aborts the character loop with
that error and no writes from this token. -/
theorem parse_chars_step_special_error {outcomes : List Bool} {st : EmuState}
    {line : List Char} {i fuel : Nat} {e : KbError}
    (hg : line.get? i = some '<')
    (hp : parse_special outcomes st line i = .error e) :
    parse_chars_fuel outcomes (fuel + 1) st line i = ([], .error e) := by
  rw [parse_chars_fuel_step]
  simp only [hg, hp]
  rw [if_pos trivial]

/-- The line `"<" ++ s` with no `'>'` in `s` fails immediately with the
unterminated-bracket `FileError`, writing nothing; later lines never run. -/
theorem runLines_unterminated_first (outcomes : List Bool) (stPre : EmuState)
    (s : String) (post : List String)
    (hs : ∀ c ∈ s.data, c ≠ '>')
    (hstrip : pyStrip ("<" ++ s) = "<" ++ s) :
    runLines outcomes stPre (("<" ++ s) :: post) =
      ([], .error (.fileError stPre.filepath stPre.line_number
         "Didn't find closing '>'")) := by
  have hlt : ("<" : String).data = ['<'] := by decide
  have hdata : ("<" ++ s).data = '<' :: s.data := by
    rw [String.data_append, hlt]
    rfl
  have hne : ("<" ++ s) ≠ "" := by
    intro hcon
    have h0 : ("<" ++ s).data = ("" : String).data := by rw [hcon]
    rw [hdata] at h0
    exact List.noConfusion h0
  have hpl : parse_line outcomes stPre ("<" ++ s) =
      ([], .error (.fileError stPre.filepath stPre.line_number
         "Didn't find closing '>'")) := by
    rw [parse_line, hdata]
    rw [if_neg (by
      intro hcon
      rw [List.take_succ_cons] at hcon
      have hD : ("DELAY" : String).data = ['D', 'E', 'L', 'A', 'Y'] := by decide
      rw [hD] at hcon
      exact absurd (List.head_eq_of_cons_eq hcon) (by decide))]
    rw [parse_chars]
    exact parse_chars_step_special_error rfl
      (parse_special_no_gt outcomes stPre ('<' :: s.data) 0 (by simpa using hs))
  rw [runLines]
  rw [hstrip, if_neg hne, hpl]

/-- C6: an angle-bracket span whose closing `'>'` never appears before the
line ends makes `parse_special` raise a `FileError` with the current
(1-indexed) line number and the missing-closing-`'>'` message; at run level,
a script whose `(pre.length + 1)`-th line is such a span (after any prefix
of lines that parses cleanly) fails with that error carrying exactly line
number `pre.length + 1`, and the reports written are exactly those of the
prefix — nothing from the bad span and nothing from the lines after it. -/
theorem unterminated_bracket_aborts :
    (∀ (outcomes : List Bool) (st : EmuState) (line : List Char) (i : Nat),
      (∀ c ∈ line.drop (i + 1), c ≠ '>') →
      parse_special outcomes st line i =
        .error (.fileError st.filepath st.line_number "Didn't find closing '>'")) ∧
    (∀ (outcomes : List Bool) (filepath : String) (pre post : List String)
       (s : String) (ws : List Report) (stPre : EmuState),
      (∀ c ∈ s.data, c ≠ '>') →
      pyStrip ("<" ++ s) = "<" ++ s →
      runLines outcomes (initState filepath) pre = (ws, .ok stPre) →
      send_keystrokes_from_file outcomes filepath (pre ++ ("<" ++ s) :: post) =
        (ws, .error (.fileError filepath (pre.length + 1)
          "Didn't find closing '>'"))) := by
  constructor
  · exact parse_special_no_gt
  · intro outcomes filepath pre post s ws stPre hs hstrip hpre
    have hst := runLines_ok_st outcomes pre (initState filepath) ws stPre hpre
    rw [send_keystrokes_from_file,
      runLines_append outcomes pre (("<" ++ s) :: post) (initState filepath),
      hpre]
    show (ws ++ (runLines outcomes stPre (("<" ++ s) :: post)).1,
          (runLines outcomes stPre (("<" ++ s) :: post)).2) = _
    rw [runLines_unterminated_first outcomes stPre s post hs hstrip]
    rw [List.append_nil, hst.1, hst.2]
    simp [initState, Nat.add_comm]

/-- Witness for C6: the run `"ab"` / `<F2` / `"cd"` fails at line 2 with
only line 1's reports written. -/
theorem unterminated_bracket_aborts_w :
    send_keystrokes_from_file [] "f" (["\"ab\""] ++ ("<" ++ "F2") :: ["\"cd\""]) =
      ([[0, 0, 4, 0, 0, 0, 0, 0], [0, 0, 0, 0, 0, 0, 0, 0],
        [0, 0, 5, 0, 0, 0, 0, 0], [0, 0, 0, 0, 0, 0, 0, 0]],
       .error (.fileError "f" (["\"ab\""].length + 1) "Didn't find closing '>'")) :=
  unterminated_bracket_aborts.2 [] "f" ["\"ab\""] ["\"cd\""] "F2"
    [[0, 0, 4, 0, 0, 0, 0, 0], [0, 0, 0, 0, 0, 0, 0, 0],
     [0, 0, 5, 0, 0, 0, 0, 0], [0, 0, 0, 0, 0, 0, 0, 0]]
    { filepath := "f", delay_between_keys := 0, modifier := .bytes0,
      line_number := 2 }
    (by decide) (by decide) (by decide)

/-- A well-formed output trace: a concatenation of press/release pairs in
which every press report has a non-zero key usage in byte 2 (so a press is
never the all-zero release report, and no two presses are adjacent). -/
def pairedTrace (ws : List Report) : Prop :=
  ∃ ps : List Report,
    ws = (ps.map (fun p => [p, emptyReport])).flatten ∧
    ∀ p ∈ ps, List.get? p 2 ≠ some 0

/-- The empty trace is paired. -/
theorem pairedTrace_nil : pairedTrace [] :=
  ⟨[], rfl, by intro p hp; exact absurd hp (List.not_mem_nil p)⟩

/-- Paired traces concatenate. -/
theorem pairedTrace_append {a b : List Report}
    (ha : pairedTrace a) (hb : pairedTrace b) : pairedTrace (a ++ b) := by
  obtain ⟨ps1, h1, hp1⟩ := ha
  obtain ⟨ps2, h2, hp2⟩ := hb
  refine ⟨ps1 ++ ps2, ?_, ?_⟩
  · rw [h1, h2, List.map_append, List.flatten_append]
  · intro p hp
    rcases List.mem_append.mp hp with h | h
    · exact hp1 p h
    · exact hp2 p h

/-- Every value in an association list with non-zero values is non-zero. -/
theorem lookup_ne_zero : ∀ (l : List (String × Nat)), (∀ p ∈ l, p.2 ≠ 0) →
    ∀ (k : String) (v : Nat), l.lookup k = some v → v ≠ 0 := by
  intro l
  induction l with
  | nil =>
      intro _ k v h
      simp [List.lookup] at h
  | cons hd tl ih =>
      intro hall k v h
      rw [List.lookup] at h
      by_cases he : k = hd.1
      · simp [he] at h
        rw [← h]
        exact hall hd (List.mem_cons_self hd tl)
      · have hne : (k == hd.1) = false := beq_false_of_ne he
        rw [hne] at h
        exact ih (fun p hp => hall p (List.mem_cons_of_mem hd hp)) k v h

/-- Every HID usage produced by `key_to_hex` is non-zero. -/
theorem key_to_hex_pos {st : EmuState} {key : String} {hex m : Nat}
    (h : key_to_hex st key = .ok (hex, m)) : hex ≠ 0 := by
  rw [key_to_hex] at h
  split at h
  · rename_i hex_key heq
    simp at h
    rw [← h.1]
    exact lookup_ne_zero key_codes (by decide) key hex_key heq
  · split at h
    · split at h
      · simp at h
        omega
      · split at h
        · simp at h
          omega
        · exact Except.noConfusion h
    · exact Except.noConfusion h

/-- Every successful send writes a paired trace. -/
theorem send_writes_paired {outcomes : List Bool} {st : EmuState}
    {key : String} {timeout : PyMod} {r : SendOk}
    (h : send_a_key outcomes st key timeout = .ok r) :
    pairedTrace r.writes := by
  rcases hk : key_to_hex st key with e | ⟨hex, m⟩
  · rw [send_a_key, hk] at h
    exact Except.noConfusion h
  · obtain ⟨rfl, -⟩ := send_a_key_ok outcomes st key timeout hex m r hk h
    refine ⟨[[if m ≠ 0 then m else pymodByte st.modifier, 0, hex, 0, 0, 0, 0, 0]],
      rfl, ?_⟩
    intro p hp
    rw [List.mem_singleton] at hp
    rw [hp]
    intro hcon
    simp [List.get?] at hcon
    exact key_to_hex_pos hk hcon

/-- The sends of a literal span write a paired trace. -/
theorem sendKeys_paired (outcomes : List Bool) (st : EmuState) :
    ∀ ks : List Char, pairedTrace (sendKeys outcomes st ks).1 := by
  intro ks
  induction ks with
  | nil => exact pairedTrace_nil
  | cons c rest ih =>
      rw [sendKeys]
      split
      · exact pairedTrace_nil
      · rename_i r heq
        exact pairedTrace_append (send_writes_paired heq) ih

/-- `parse_text` writes a paired trace (whether or not it raises). -/
theorem parse_text_paired (outcomes : List Bool) (st : EmuState)
    (line : List Char) (i : Nat) :
    pairedTrace (parse_text outcomes st line i).1 := by
  rw [parse_text]
  split
  · exact sendKeys_paired outcomes st _
  · split
    · exact sendKeys_paired outcomes st _
    · exact sendKeys_paired outcomes st _

/-- A successful `parse_special` writes a paired trace. -/
theorem parse_special_paired {outcomes : List Bool} {st : EmuState}
    {line : List Char} {i : Nat} {r : SpecialRes}
    (h : parse_special outcomes st line i = .ok r) :
    pairedTrace r.writes := by
  rw [parse_special] at h
  split at h
  · exact Except.noConfusion h
  · split at h
    · split at h <;> (cases h; exact pairedTrace_nil)
    · split at h
      · exact Except.noConfusion h
      · rename_i rr heq
        cases h
        exact send_writes_paired heq

/-- The per-character loop writes a paired trace. -/
theorem parse_chars_fuel_paired (outcomes : List Bool) :
    ∀ (fuel : Nat) (st : EmuState) (line : List Char) (i : Nat),
      pairedTrace (parse_chars_fuel outcomes fuel st line i).1 := by
  intro fuel
  induction fuel with
  | zero => intro st line i; exact pairedTrace_nil
  | succ fuel ih =>
      intro st line i
      rw [parse_chars_fuel_step]
      split
      · exact pairedTrace_nil
      · split
        · split
          · exact pairedTrace_nil
          · rename_i r heq
            exact pairedTrace_append (parse_special_paired heq) (ih _ line _)
        · split
          · split
            · rename_i pws e heq
              have := parse_text_paired outcomes st line i
              rw [heq] at this
              exact this
            · rename_i pws st2 j heq
              have hws : pairedTrace pws := by
                have := parse_text_paired outcomes st line i
                rw [heq] at this
                exact this
              exact pairedTrace_append hws (ih _ line _)
          · split
            · exact pairedTrace_nil
            · split
              · exact ih _ line _
              · exact pairedTrace_nil

/-- A parsed line writes a paired trace. -/
theorem parse_line_paired (outcomes : List Bool) (st : EmuState) (l : String) :
    pairedTrace (parse_line outcomes st l).1 := by
  rw [parse_line]
  split
  · split
    · exact pairedTrace_nil
    · split
      · exact pairedTrace_nil
      · exact pairedTrace_nil
  · rw [parse_chars]
    exact parse_chars_fuel_paired outcomes _ st l.data 0

/-- `runLines` writes a paired trace. -/
theorem runLines_paired (outcomes : List Bool) :
    ∀ (lines : List String) (st : EmuState),
      pairedTrace (runLines outcomes st lines).1 := by
  intro lines
  induction lines with
  | nil => intro st; exact pairedTrace_nil
  | cons l rest ih =>
      intro st
      rw [runLines]
      split
      · exact ih _
      · split
        · rename_i ws e heq
          have := parse_line_paired outcomes st (pyStrip l)
          rw [heq] at this
          exact this
        · rename_i ws st2 heq
          have hws : pairedTrace ws := by
            have := parse_line_paired outcomes st (pyStrip l)
            rw [heq] at this
            exact this
          exact pairedTrace_append hws (ih _)

/-- C7: over any run, the sequence of reports written to the sink is a
concatenation of press/release pairs: every press report (non-zero key
byte) is followed by exactly one all-zero release report before the next
press, and no two press reports are ever adjacent. -/
theorem press_release_alternation (outcomes : List Bool) (filepath : String)
    (lines : List String) :
    pairedTrace (send_keystrokes_from_file outcomes filepath lines).1 := by
  rw [send_keystrokes_from_file]
  exact runLines_paired outcomes lines (initState filepath)

/-- The retry loop counts one failed attempt per iteration: if every
attempt in the window fails, it exits with `time + remaining` attempts
made and no success. -/
theorem send_loop_code_all_fail (outcomes : List Bool) :
    ∀ (remaining time : Nat),
      (∀ t, time ≤ t → t < time + remaining → attemptOk outcomes t = false) →
      send_loop_code outcomes remaining time = ⟨time + remaining, false⟩ := by
  intro remaining
  induction remaining with
  | zero =>
      intro time h
      simp [send_loop_code]
  | succ rem ih =>
      intro time h
      rw [send_loop_code]
      rw [if_neg (by
        rw [h time (Nat.le_refl time) (by omega)]
        exact Bool.false_ne_true)]
      rw [ih (time + 1) (fun t h1 h2 => h t (by omega) (by omega))]
      congr 1
      omega

/-- The retry loop returns at the first succeeding attempt, having made
`tsucc + 1` attempts. -/
theorem send_loop_code_first_success (outcomes : List Bool) :
    ∀ (remaining time tsucc : Nat),
      time ≤ tsucc → tsucc < time + remaining →
      (∀ t, time ≤ t → t < tsucc → attemptOk outcomes t = false) →
      attemptOk outcomes tsucc = true →
      send_loop_code outcomes remaining time = ⟨tsucc + 1, true⟩ := by
  intro remaining
  induction remaining with
  | zero =>
      intro time tsucc h1 h2 _ _
      omega
  | succ rem ih =>
      intro time tsucc h1 h2 hfail hsucc
      rw [send_loop_code]
      by_cases he : time = tsucc
      · rw [he, if_pos hsucc]
      · rw [if_neg (by
          rw [hfail time (Nat.le_refl time) (by omega)]
          exact Bool.false_ne_true)]
        exact ih (time + 1) tsucc (by omega) (by omega)
          (fun t ht1 ht2 => hfail t (by omega) ht2) hsucc

/-- `send_a_key` raises the module's `TimeoutError` when the retry loop
falls through. -/
theorem send_a_key_fail (outcomes : List Bool) (st : EmuState) (key : String)
    (timeout : PyMod) (hex imod : Nat)
    (hk : key_to_hex st key = .ok (hex, imod))
    (hs : (send_loop outcomes timeout).success = false) :
    send_a_key outcomes st key timeout = .error (.timeoutError connectMsg) := by
  rw [send_a_key, hk]
  show (if (send_loop outcomes timeout).success = true then
        Except.ok (⟨[[if imod ≠ 0 then imod else pymodByte st.modifier, 0, hex,
                      0, 0, 0, 0, 0], emptyReport],
                    (send_loop outcomes timeout).attempts⟩ : SendOk)
      else Except.error (KbError.timeoutError connectMsg)) = _
  rw [if_neg (by rw [hs]; exact Bool.false_ne_true)]

/-- `send_a_key` returns normally when the retry loop succeeds, reporting
the loop's attempt count. -/
theorem send_a_key_succ (outcomes : List Bool) (st : EmuState) (key : String)
    (timeout : PyMod) (hex imod : Nat)
    (hk : key_to_hex st key = .ok (hex, imod))
    (hs : (send_loop outcomes timeout).success = true) :
    send_a_key outcomes st key timeout =
      .ok ⟨[[if imod ≠ 0 then imod else pymodByte st.modifier, 0, hex,
             0, 0, 0, 0, 0], emptyReport],
           (send_loop outcomes timeout).attempts⟩ := by
  rw [send_a_key, hk]
  show (if (send_loop outcomes timeout).success = true then
        Except.ok (⟨[[if imod ≠ 0 then imod else pymodByte st.modifier, 0, hex,
                      0, 0, 0, 0, 0], emptyReport],
                    (send_loop outcomes timeout).attempts⟩ : SendOk)
      else Except.error (KbError.timeoutError connectMsg)) = _
  rw [if_pos hs]

/-- C8: with numeric `timeout` and a sink whose first `timeout` attempts all
fail, `send_a_key` makes exactly `timeout` attempts and then raises the
module's `TimeoutError` ("Keyboard emulator couldn't connect to host", the
spec's `ConnectError`); if instead some attempt within the budget succeeds,
the send returns normally — raising nothing — after `t + 1` attempts, where
`t` is the first succeeding attempt.  (The one-second sleep between
attempts is real time, outside this embedding; only attempt counting is
modelled.) -/
theorem send_retry_budget (outcomes : List Bool) (st : EmuState) (key : String)
    (T hex imod : Nat) (hk : key_to_hex st key = .ok (hex, imod)) :
    ((∀ t, t < T → attemptOk outcomes t = false) →
      send_loop outcomes (.code T) = ⟨T, false⟩ ∧
      send_a_key outcomes st key (.code T) = .error (.timeoutError connectMsg)) ∧
    (∀ t, t < T → attemptOk outcomes t = true →
      (∀ u, u < t → attemptOk outcomes u = false) →
      ∃ r, send_a_key outcomes st key (.code T) = .ok r ∧ r.attempts = t + 1) := by
  constructor
  · intro hfail
    have hloop : send_loop outcomes (.code T) = ⟨T, false⟩ := by
      show send_loop_code outcomes T 0 = _
      rw [send_loop_code_all_fail outcomes T 0 (fun t h1 h2 => hfail t (by omega))]
      congr 1
      omega
    exact ⟨hloop, send_a_key_fail outcomes st key (.code T) hex imod hk
      (by rw [hloop])⟩
  · intro t ht hsucc hfail
    have hloop : send_loop outcomes (.code T) = ⟨t + 1, true⟩ := by
      show send_loop_code outcomes T 0 = _
      exact send_loop_code_first_success outcomes T 0 t (Nat.zero_le t)
        (by omega) (fun u h1 h2 => hfail u h2) hsucc
    refine ⟨_, send_a_key_succ outcomes st key (.code T) hex imod hk
      (by rw [hloop]), ?_⟩
    rw [hloop]

/-- Witness for C8: three straight failures with budget 3 raise the error
after exactly 3 attempts; a failure then a success with budget 20 returns
after 2 attempts. -/
theorem send_retry_budget_w :
    (send_loop [false, false, false] (.code 3) = ⟨3, false⟩ ∧
     send_a_key [false, false, false] (initState "s") "a" (.code 3) =
       .error (.timeoutError connectMsg)) ∧
    ∃ r, send_a_key [false, true] (initState "s") "a" (.code 20) = .ok r ∧
      r.attempts = 1 + 1 :=
  ⟨(send_retry_budget [false, false, false] (initState "s") "a" 3 4 0
      (by decide)).1 (by decide),
   (send_retry_budget [false, true] (initState "s") "a" 20 4 0
      (by decide)).2 1 (by decide) (by decide) (by decide)⟩

/-- C9: `parse_special` passes the interpreter's modifier state as the
second positional argument of `send_a_key` — which is the `timeout`
parameter, not a modifier.  With a modifier toggled
(`self.modifier = .code n`), a non-modifier special key is therefore sent
with retry budget exactly `n` instead of the default 20: if the first `n`
attempts fail, the send raises the `TimeoutError` even when attempt `n`
(inside the default budget of 20) would have succeeded; and on success the
press report's modifier byte is still the value `n` taken from the
interpreter's modifier state inside `send_a_key`, never from the `timeout`
argument. -/
theorem special_timeout_is_modifier (outcomes : List Bool) (st : EmuState)
    (line : List Char) (i : Nat) (special : String) (j n : Nat)
    (hscan : scanSpecial line (i + 1) = some (special, j))
    (hmod : modifier_codes.lookup special = none)
    (hst : st.modifier = .code n) :
    (parse_special outcomes st line i =
      (match send_a_key outcomes st special (.code n) with
       | .error e => .error e
       | .ok r => .ok ⟨st, j, r.writes⟩)) ∧
    (∀ hex imod, key_to_hex st special = .ok (hex, imod) →
      ((∀ t, t < n → attemptOk outcomes t = false) →
        parse_special outcomes st line i =
          .error (.timeoutError connectMsg) ∧
        (n < 20 → attemptOk outcomes n = true →
          ∃ r, send_a_key outcomes st special (.code 20) = .ok r)) ∧
      (imod = 0 → (send_loop outcomes (.code n)).success = true →
        parse_special outcomes st line i =
          .ok ⟨st, j, [[n, 0, hex, 0, 0, 0, 0, 0], emptyReport]⟩)) := by
  have h1 : parse_special outcomes st line i =
      (match send_a_key outcomes st special (.code n) with
       | .error e => .error e
       | .ok r => .ok ⟨st, j, r.writes⟩) := by
    rw [parse_special, hscan]
    simp [hmod, hst]
  refine ⟨h1, ?_⟩
  intro hex imod hk
  constructor
  · intro hfail
    have hloop : send_loop outcomes (.code n) = ⟨n, false⟩ := by
      show send_loop_code outcomes n 0 = _
      rw [send_loop_code_all_fail outcomes n 0 (fun t ht1 ht2 => hfail t (by omega))]
      congr 1
      omega
    constructor
    · rw [h1, send_a_key_fail outcomes st special (.code n) hex imod hk
        (by rw [hloop])]
    · intro hlt hsucc
      have hloop20 : send_loop outcomes (.code 20) = ⟨n + 1, true⟩ := by
        show send_loop_code outcomes 20 0 = _
        exact send_loop_code_first_success outcomes 20 0 n (Nat.zero_le n)
          (by omega) (fun u h1 h2 => hfail u h2) hsucc
      exact ⟨_, send_a_key_succ outcomes st special (.code 20) hex imod hk
        (by rw [hloop20])⟩
  · intro him hsucc
    rw [h1, send_a_key_succ outcomes st special (.code n) hex imod hk hsucc]
    simp [him, hst, pymodByte]

/-- Witness for C9: with SHIFT_L toggled (code 2) and the sink failing on
the first two attempts, `<F2>` fails with the connect `TimeoutError`
(budget 2 = the modifier code), while the same send with the default
budget 20 succeeds. -/
theorem special_timeout_is_modifier_w :
    parse_special [false, false] {initState "s" with modifier := PyMod.code 2}
      "<F2>".data 0 = .error (.timeoutError connectMsg) ∧
    ∃ r, send_a_key [false, false]
      {initState "s" with modifier := PyMod.code 2} "F2" (.code 20) = .ok r := by
  have h := (special_timeout_is_modifier [false, false]
    {initState "s" with modifier := PyMod.code 2} "<F2>".data 0 "F2" 3 2
    (by decide) (by decide) (by decide)).2 0x3B 0 (by decide)
  have h2 := h.1 (by decide)
  exact ⟨h2.1, h2.2 (by decide) (by decide)⟩

/-- C10: inside a quoted span, a backslash consumes the immediately
following character, and that character is sent as the keystroke whatever
it is — the escape is not limited to the double quote.  Concretely (from
the initial state): `"\\"` sends one backslash (usage 0x31); `"\a"` sends
`a` (usage 0x04); and in `"\"` the backslash escapes the closing quote, so
the quote character is sent as a keystroke (usage 0x34 with implied
SHIFT_L) and the span is then unterminated, raising the
missing-closing-quote `FileError`. -/
theorem backslash_escape (c : Char) (rest : List Char) :
    scanTextL ('\\' :: c :: rest) =
      (c :: (scanTextL rest).1, (scanTextL rest).2.map (· + 2)) ∧
    parse_text [] (initState "s") "\"\\\\\"".data 0 =
      ([[0, 0, 0x31, 0, 0, 0, 0, 0], emptyReport], .ok (initState "s", 3)) ∧
    parse_text [] (initState "s") "\"\\a\"".data 0 =
      ([[0, 0, 0x04, 0, 0, 0, 0, 0], emptyReport], .ok (initState "s", 3)) ∧
    parse_text [] (initState "s") "\"\\\"".data 0 =
      ([[2, 0, 0x34, 0, 0, 0, 0, 0], emptyReport],
       .error (.fileError "s" 1 "Didn't find closing \"")) := by
  refine ⟨rfl, by decide, by decide, by decide⟩
